import Mathlib

/-!
Verification of the CCS-based testing framework (`ccs_test_framework.py`):
a shallow embedding of its data model (practice modes, UI elements,
capabilities, intents, `AppState`, `UserState`, `CCSInteractionState`,
`CCSTestOracle`) and of its operations (`check_invariants`,
`compute_port_matching`, `check_ui_consistency`, `initialize_state`,
`transition`, `user_validation`, `get_bugs`), followed by theorems that
settle the specification's claims about them.

Python conventions carried over: machine lists indexed by Python `int`
are modelled with `Int` indices and an explicit `Except` for the
`IndexError` a CPython list raises; Python `set` fields become `Finset`;
`None`-able fields become `Option`; wall-clock floats, whose values are
never computed with beyond one subtraction, are modelled as `Rat`
parameters supplied by the caller.
-/

/-- High-level practice modes (`PracticeMode` enum). -/
inductive PracticeMode where
  | FREE_TEXT
  | GUIDED_LIST
  | GUIDED_EDIT
deriving DecidableEq, Fintype, Repr

/-- Visible UI elements that can be present or absent (`UIElement` enum). -/
inductive UIElement where
  | TEXT_INPUT_FREE
  | TEXT_INPUT_EDIT
  | AUDIO_RECORDER
  | PHRASE_DISPLAY_BOLD
  | RESULTS_PANEL
  | AUDIO_PLAYER_TARGET_PRACTICE
  | AUDIO_PLAYER_USER_LIVE
  | AUDIO_PLAYER_TARGET_RESULTS
  | AUDIO_PLAYER_USER_RESULTS
  | AUDIO_PLAYER_RECOGNIZED_TTS
  | AUDIO_PLAYER_PHONEME_CORRECT
  | AUDIO_PLAYER_PHONEME_USER
  | PHRASE_LIST_UPLOADER
  | PREV_BUTTON
  | NEXT_BUTTON
  | JUMP_SELECTOR
  | PROGRESS_BAR
  | CHECK_BUTTON
  | CLEAR_BUTTON
  | EDIT_BUTTON
  | BACK_TO_LIST_BUTTON
  | CLEAR_LIST_BUTTON
deriving DecidableEq, Fintype, Repr

/-- What the app can accept/process, its input ports (`AppCapability` enum). -/
inductive AppCapability where
  | ACCEPT_TEXT_INPUT
  | ACCEPT_AUDIO_RECORDING
  | ACCEPT_FILE_UPLOAD
  | ACCEPT_NAVIGATION_PREV
  | ACCEPT_NAVIGATION_NEXT
  | ACCEPT_JUMP_TO_PHRASE
  | ACCEPT_MODE_TOGGLE
  | ACCEPT_CLEAR_RECORDING
  | ACCEPT_CLEAR_LIST
  | PROVIDE_TARGET_AUDIO_PRACTICE
  | PROVIDE_USER_AUDIO_LIVE
  | PROVIDE_TARGET_AUDIO_RESULTS
  | PROVIDE_USER_AUDIO_RESULTS
  | PROVIDE_RECOGNIZED_AUDIO
  | PROVIDE_PHONEME_AUDIO_CORRECT
  | PROVIDE_PHONEME_AUDIO_USER
  | PROVIDE_ANALYSIS_RESULTS
deriving DecidableEq, Fintype, Repr

/-- What the user wants to do, their output ports (`UserIntent` enum). -/
inductive UserIntent where
  | WANT_ENTER_TEXT
  | WANT_RECORD_AUDIO
  | WANT_UPLOAD_FILE
  | WANT_GO_PREVIOUS
  | WANT_GO_NEXT
  | WANT_JUMP_TO_PHRASE
  | WANT_TOGGLE_MODE
  | WANT_CLEAR_RECORDING
  | WANT_CLEAR_LIST
  | WANT_SEE_RESULTS
  | WANT_HEAR_TARGET_PRACTICE
  | WANT_HEAR_USER_LIVE
  | WANT_HEAR_TARGET_RESULTS
  | WANT_HEAR_USER_RESULTS
  | WANT_HEAR_RECOGNIZED
  | WANT_HEAR_PHONEME_CORRECT
  | WANT_HEAR_PHONEME_USER
deriving DecidableEq, Fintype, Repr

/-- State of the app agent: the `AppState` dataclass, with the Python
dataclass defaults as Lean default field values. `current_phrase_index` is a
Python `int`, so `Int` here; `current_score` is a Python float whose value is
only ever compared against `None`, modelled as `Option Rat`; `settings` is an
opaque optional dictionary. -/
structure AppState where
  mode : PracticeMode := PracticeMode.FREE_TEXT
  current_text : String := ""
  phrase_list : List String := []
  current_phrase_index : Int := 0
  has_recording : Bool := false
  has_results : Bool := false
  displayed_phrase_text : Option String := none
  current_score : Option Rat := none
  recognized_text : Option String := none
  settings : Option (List (String × String)) := none
  visible_elements : Finset UIElement := ∅
  active_capabilities : Finset AppCapability := ∅
deriving DecidableEq

/-- CPython list subscription `l[i]` for an `int` index: a negative index
counts from the end; an index outside `[-len(l), len(l))` raises `IndexError`. -/
def py_list_get {α : Type} (l : List α) (i : Int) : Except String α :=
  let j : Int := if i < 0 then (l.length : Int) + i else i
  if h : 0 ≤ j ∧ j < (l.length : Int) then
    Except.ok (l.get ⟨j.toNat, by omega⟩)
  else Except.error "IndexError: list index out of range"

/-- Message of the first invariant block: results without a recording. -/
def results_no_recording_message : String :=
  "Results exist but no recording (impossible state)"

/-- Message of the second invariant block: GUIDED_LIST with an empty list. -/
def empty_list_message : String :=
  "GUIDED_LIST mode but empty phrase list"

/-- Message of the third invariant block, negative branch. -/
def negative_index_message (i : Int) : String :=
  "Negative phrase index: " ++ toString i

/-- Message of the third invariant block, out-of-bounds branch. -/
def out_of_bounds_message (i : Int) (n : Nat) : String :=
  "Phrase index " ++ toString i ++ " out of bounds (size=" ++ toString n ++ ")"

/-- Message of the fourth invariant block: results without a score. -/
def no_score_message : String :=
  "Results exist but no score available"

/-- Message of the fifth invariant block: displayed text differs from the
list phrase at the current index. -/
def displayed_mismatch_message (d e : String) (i : Int) : String :=
  "Displayed phrase '" ++ d ++ "' doesn't match list phrase '" ++ e ++
    "' at index " ++ toString i

/-- First invariant block of `AppState.check_invariants`: if `has_results`,
must have `has_recording`. -/
def check_results_without_recording (s : AppState) : List String :=
  if s.has_results && !s.has_recording then [results_no_recording_message] else []

/-- Second invariant block: GUIDED_LIST requires a non-empty phrase list. -/
def check_guided_list_nonempty (s : AppState) : List String :=
  if s.mode = PracticeMode.GUIDED_LIST ∧ s.phrase_list.length = 0 then
    [empty_list_message]
  else []

/-- Third invariant block: when the phrase list is non-empty,
`current_phrase_index` must be in bounds (negative and too-large indices
produce distinct messages). -/
def check_index_bounds (s : AppState) : List String :=
  if s.phrase_list.length > 0 then
    if s.current_phrase_index < 0 then
      [negative_index_message s.current_phrase_index]
    else if s.current_phrase_index ≥ (s.phrase_list.length : Int) then
      [out_of_bounds_message s.current_phrase_index s.phrase_list.length]
    else []
  else []

/-- Fourth invariant block: if `has_results`, a score should be present. -/
def check_results_score (s : AppState) : List String :=
  if s.has_results ∧ s.current_score = none then [no_score_message] else []

/-- Fifth invariant block: in GUIDED_LIST with a non-empty list the source
reads `phrase_list[current_phrase_index]` (which can raise `IndexError`,
propagated here as `Except.error`) and, when `displayed_phrase_text` is
truthy (neither `None` nor the empty string) and differs from that phrase,
reports the mismatch. -/
def check_displayed_phrase (s : AppState) : Except String (List String) :=
  if s.mode = PracticeMode.GUIDED_LIST ∧ s.phrase_list.length > 0 then
    match py_list_get s.phrase_list s.current_phrase_index with
    | Except.error e => Except.error e
    | Except.ok expected_phrase =>
      Except.ok
        (match s.displayed_phrase_text with
         | some d =>
           if d ≠ "" ∧ d ≠ expected_phrase then
             [displayed_mismatch_message d expected_phrase s.current_phrase_index]
           else []
         | none => [])
  else Except.ok []

/-- The body of `AppState.check_invariants`: the five blocks run in source
order and their violation strings are appended in that order; an
`IndexError` raised by the fifth block's list subscription aborts the whole
call, exactly as in the Python method. -/
def AppState.check_invariants (s : AppState) : Except String (List String) :=
  match check_displayed_phrase s with
  | Except.error e => Except.error e
  | Except.ok v5 =>
    Except.ok (check_results_without_recording s ++ check_guided_list_nonempty s ++
      check_index_bounds s ++ check_results_score s ++ v5)

/-- Model of what the user wants to do: the `UserState` dataclass. -/
structure UserState where
  active_intents : Finset UserIntent := ∅
  expected_visible : Finset UIElement := ∅
  perception_matches : Option Bool := none
  perception_notes : String := ""
deriving DecidableEq

/-- A bug record: the Python code appends dictionaries of two shapes to
`bugs_found`, one per `type` tag. Each carries the step number and the
tester's note; the automatic kind carries the invariant-violation strings,
the tester-reported kind the expected and actual visible-element sets. -/
inductive Bug where
  | invariant_violation (step : Nat) (violations : List String) (notes : String)
  | ui_inconsistency (step : Nat) (expected_visible actual_visible : Finset UIElement)
      (notes : String)
deriving DecidableEq

/-- Step number a bug record carries (the `step` key of the Python dict). -/
def Bug.step : Bug → Nat
  | Bug.invariant_violation k _ _ => k
  | Bug.ui_inconsistency k _ _ _ => k

/-- Whether a bug is the automatic kind (`type == INVARIANT_VIOLATION`). -/
def Bug.is_invariant_violation : Bug → Bool
  | Bug.invariant_violation _ _ _ => true
  | Bug.ui_inconsistency _ _ _ _ => false

/-- Whether a bug is the tester-reported kind (`type == UI_INCONSISTENCY`). -/
def Bug.is_ui_inconsistency : Bug → Bool
  | Bug.invariant_violation _ _ _ => false
  | Bug.ui_inconsistency _ _ _ _ => true

/-- Combined state of both agents: the `CCSInteractionState` dataclass with
its Python defaults. -/
structure CCSInteractionState where
  app_state : AppState
  user_state : UserState
  satisfied_interactions : Finset (UserIntent × AppCapability) := ∅
  unsatisfied_user_intents : Finset UserIntent := ∅
  unused_app_capabilities : Finset AppCapability := ∅
  test_step : Nat := 0
  bugs_found : List Bug := []
  timestamp : Rat := 0
  time_since_last_transition : Rat := 0
deriving DecidableEq

/-- The fixed complementary port table of `compute_port_matching` (its local
`port_pairs` dict): user intent to partner app capability. `Option` because
the source reads it with `dict.get`, which yields `None` for a missing key. -/
def port_pairs : UserIntent → Option AppCapability
  | UserIntent.WANT_ENTER_TEXT => some AppCapability.ACCEPT_TEXT_INPUT
  | UserIntent.WANT_RECORD_AUDIO => some AppCapability.ACCEPT_AUDIO_RECORDING
  | UserIntent.WANT_UPLOAD_FILE => some AppCapability.ACCEPT_FILE_UPLOAD
  | UserIntent.WANT_GO_PREVIOUS => some AppCapability.ACCEPT_NAVIGATION_PREV
  | UserIntent.WANT_GO_NEXT => some AppCapability.ACCEPT_NAVIGATION_NEXT
  | UserIntent.WANT_JUMP_TO_PHRASE => some AppCapability.ACCEPT_JUMP_TO_PHRASE
  | UserIntent.WANT_TOGGLE_MODE => some AppCapability.ACCEPT_MODE_TOGGLE
  | UserIntent.WANT_CLEAR_RECORDING => some AppCapability.ACCEPT_CLEAR_RECORDING
  | UserIntent.WANT_CLEAR_LIST => some AppCapability.ACCEPT_CLEAR_LIST
  | UserIntent.WANT_SEE_RESULTS => some AppCapability.PROVIDE_ANALYSIS_RESULTS
  | UserIntent.WANT_HEAR_TARGET_PRACTICE => some AppCapability.PROVIDE_TARGET_AUDIO_PRACTICE
  | UserIntent.WANT_HEAR_USER_LIVE => some AppCapability.PROVIDE_USER_AUDIO_LIVE
  | UserIntent.WANT_HEAR_TARGET_RESULTS => some AppCapability.PROVIDE_TARGET_AUDIO_RESULTS
  | UserIntent.WANT_HEAR_USER_RESULTS => some AppCapability.PROVIDE_USER_AUDIO_RESULTS
  | UserIntent.WANT_HEAR_RECOGNIZED => some AppCapability.PROVIDE_RECOGNIZED_AUDIO
  | UserIntent.WANT_HEAR_PHONEME_CORRECT => some AppCapability.PROVIDE_PHONEME_AUDIO_CORRECT
  | UserIntent.WANT_HEAR_PHONEME_USER => some AppCapability.PROVIDE_PHONEME_AUDIO_USER

/-- The satisfied side of the matching loop: each active intent whose partner
capability (per `port_pairs`, which is truthy for every enum member) lies in
the app's active capabilities contributes the pair `(intent, capability)`. -/
def satisfied_of (a : AppState) (u : UserState) : Finset (UserIntent × AppCapability) :=
  u.active_intents.biUnion (fun user_intent =>
    match port_pairs user_intent with
    | some c => if c ∈ a.active_capabilities then {(user_intent, c)} else ∅
    | none => ∅)

/-- The `else` branch of the matching loop, as a Bool predicate: the intent
has no partner capability in the app's active set (or no table entry). -/
def intent_unmatched (a : AppState) (user_intent : UserIntent) : Bool :=
  match port_pairs user_intent with
  | some c => !(decide (c ∈ a.active_capabilities))
  | none => true

/-- The unsatisfied side of the matching loop. -/
def unsatisfied_of (a : AppState) (u : UserState) : Finset UserIntent :=
  u.active_intents.filter (fun user_intent => intent_unmatched a user_intent = true)

/-- After the loop: `unused = active_capabilities - used_capabilities`, with
`used_capabilities` the capabilities appearing in a satisfied pair. -/
def unused_of (a : AppState) (u : UserState) : Finset AppCapability :=
  a.active_capabilities \ (satisfied_of a u).image Prod.snd

/-- The method `compute_port_matching`: clears the three derived sets and
recomputes them from the two agent states (the clearing is subsumed by the
functional update). -/
def CCSInteractionState.compute_port_matching (s : CCSInteractionState) : CCSInteractionState :=
  { s with
    satisfied_interactions := satisfied_of s.app_state s.user_state,
    unsatisfied_user_intents := unsatisfied_of s.app_state s.user_state,
    unused_app_capabilities := unused_of s.app_state s.user_state }

/-- The method `check_ui_consistency`: returns the Bool the Python method
returns, along with the (possibly) updated snapshot, since a mismatch verdict
appends a `UI_INCONSISTENCY` bug to this snapshot's own bug list. -/
def CCSInteractionState.check_ui_consistency (s : CCSInteractionState) :
    Bool × CCSInteractionState :=
  match s.user_state.perception_matches with
  | none => (false, s)
  | some false =>
    (false,
      { s with
        bugs_found := s.bugs_found ++
          [Bug.ui_inconsistency s.test_step s.user_state.expected_visible
            s.app_state.visible_elements s.user_state.perception_notes] })
  | some true => (true, s)

/-- The testing oracle `CCSTestOracle`. Its `current_state` field always
aliases the last element of `state_history` (both methods that set it append
the same object), so it is modelled as the derived `List.getLast?`; the
`test_config` dict plays no role in any operation and is omitted. -/
structure CCSTestOracle where
  state_history : List CCSInteractionState := []
deriving DecidableEq

/-- The oracle with no recorded history (a fresh `CCSTestOracle()`). -/
def CCSTestOracle.empty : CCSTestOracle := {}

/-- The derived `current_state` field: `None` before the first entry,
otherwise the most recently appended snapshot. -/
def CCSTestOracle.current_state (o : CCSTestOracle) : Option CCSInteractionState :=
  o.state_history.getLast?

/-- The method `initialize_state`: builds a default snapshot in the given
mode (step number, bug list, timing all left at their defaults) and appends
it; it runs neither `compute_port_matching` nor `check_invariants`. -/
def CCSTestOracle.initialize_state (o : CCSTestOracle) (mode : PracticeMode) :
    CCSTestOracle × CCSInteractionState :=
  let state : CCSInteractionState := { app_state := { mode := mode }, user_state := {} }
  ({ state_history := o.state_history ++ [state] }, state)

/-- The method `transition`, with the wall-clock reading `time.time()` passed
in as `current_time`: computes the elapsed time, builds the snapshot with
`test_step = len(state_history)`, runs port matching, then runs
`check_invariants` on the new app state — an `IndexError` raised there
propagates out before anything is appended, leaving the oracle unchanged.
A non-empty violation list is recorded as one automatic
`INVARIANT_VIOLATION` bug on the snapshot, which is then appended. -/
def CCSTestOracle.transition (o : CCSTestOracle) (current_time : Rat)
    (new_app_state : AppState) (new_user_state : UserState) :
    Except String (CCSTestOracle × CCSInteractionState) :=
  let time_since_last : Rat :=
    match o.current_state with
    | some prev => current_time - prev.timestamp
    | none => 0
  let state : CCSInteractionState :=
    { app_state := new_app_state, user_state := new_user_state,
      test_step := o.state_history.length, timestamp := current_time,
      time_since_last_transition := time_since_last }
  let state := state.compute_port_matching
  match new_app_state.check_invariants with
  | Except.error e => Except.error e
  | Except.ok violations =>
    let state :=
      if violations = [] then state
      else
        { state with
          bugs_found := state.bugs_found ++
            [Bug.invariant_violation state.test_step violations
              "Automated invariant check"] }
    Except.ok ({ state_history := o.state_history ++ [state] }, state)

/-- In-place mutation of the last element of a list, as Python's
`self.current_state.<field> = ...` mutates the object aliased by
`state_history[-1]`. -/
def update_last {α : Type} (f : α → α) : List α → List α
  | [] => []
  | [a] => [f a]
  | a :: b :: rest => a :: update_last f (b :: rest)

/-- The body of `user_validation` acting on the current snapshot: set its
perception fields, then re-run `check_ui_consistency` on it (the returned
Bool is discarded). -/
def CCSInteractionState.apply_validation (matched : Bool) (notes : String)
    (current : CCSInteractionState) : CCSInteractionState :=
  let current :=
    { current with
      user_state :=
        { current.user_state with
          perception_matches := some matched, perception_notes := notes } }
  current.check_ui_consistency.2

/-- The method `user_validation`: when a current state exists, mutates it in
place (it is the last history entry); with no current state it does nothing. -/
def CCSTestOracle.user_validation (o : CCSTestOracle) (matched : Bool)
    (notes : String) : CCSTestOracle :=
  { state_history :=
      update_last (CCSInteractionState.apply_validation matched notes) o.state_history }

/-- The method `get_bugs`: folds over the history extending an accumulator
with each snapshot's bug list, in history order. -/
def CCSTestOracle.get_bugs (o : CCSTestOracle) : List Bug :=
  o.state_history.foldl (fun all_bugs state => all_bugs ++ state.bugs_found) []

/-- One oracle API call after an optional initial `initialize_state`:
either a `transition` (with its wall-clock reading) or a `user_validation`. -/
inductive OracleOp where
  | transition (now : Rat) (a : AppState) (u : UserState)
  | user_validation (matched : Bool) (notes : String)

/-- Apply one call to the oracle. A `transition` whose invariant check raises
leaves the oracle untouched: the Python exception propagates before either
history append. -/
def CCSTestOracle.apply_op (o : CCSTestOracle) (op : OracleOp) : CCSTestOracle :=
  match op with
  | OracleOp.transition now a u =>
    match o.transition now a u with
    | Except.ok p => p.1
    | Except.error _ => o
  | OracleOp.user_validation m notes => o.user_validation m notes

/-- Run a sequence of oracle calls left to right. -/
def CCSTestOracle.run (o : CCSTestOracle) (ops : List OracleOp) : CCSTestOracle :=
  ops.foldl CCSTestOracle.apply_op o

/-- A session start: a fresh oracle, after at most one `initialize_state`. -/
def session_start (minit : Option PracticeMode) : CCSTestOracle :=
  match minit with
  | none => CCSTestOracle.empty
  | some m => (CCSTestOracle.empty.initialize_state m).1

/-- Scenario A app state: FreeText mode offering only text input. -/
def scenario_a_app : AppState :=
  { mode := PracticeMode.FREE_TEXT,
    active_capabilities := {AppCapability.ACCEPT_TEXT_INPUT} }

/-- Scenario A user state: the single intent of entering text. -/
def scenario_a_user : UserState :=
  { active_intents := {UserIntent.WANT_ENTER_TEXT} }

/-- Scenario B app state: GuidedList over three phrases at index 0, with the
adapter reporting "Obrigado" as the displayed text. -/
def scenario_b_app : AppState :=
  { mode := PracticeMode.GUIDED_LIST,
    phrase_list := ["Bom dia", "Obrigado", "Por favor"],
    current_phrase_index := 0,
    displayed_phrase_text := some "Obrigado" }

/-- A structurally invalid state of the kind named by the safety claim:
GuidedList with a non-empty phrase list and an index past its end. On it the
source's `check_invariants` reaches `self.phrase_list[self.current_phrase_index]`
and raises `IndexError`. -/
def c1_failing_app : AppState :=
  { mode := PracticeMode.GUIDED_LIST, phrase_list := ["Bom dia"],
    current_phrase_index := 1 }

/-- An app state with an empty phrase list and an index (5) outside
`[0, len(phrase_list)) = [0, 0)`: the index-bounds block is guarded by
`len(phrase_list) > 0`, so no out-of-bounds violation is produced. -/
def c4_outside_app : AppState := { current_phrase_index := 5 }

/-- A non-empty-list app state (FreeText, one phrase, index 5) on which
`check_invariants` returns normally with exactly the out-of-bounds
violation. -/
def c4_witness_app : AppState :=
  { phrase_list := ["Bom dia"], current_phrase_index := 5 }

/-- Two consecutive transitions carrying the same wall-clock reading (zero
measured elapsed time), each with the default valid app and user states. -/
def c8_ops : List OracleOp :=
  [OracleOp.transition 0 {} {}, OracleOp.transition 0 {} {}]

/-- History positions and step numbers coincide: entry `k` carries
`test_step = k`. -/
def steps_indexed (o : CCSTestOracle) : Prop :=
  o.state_history.map (fun st => st.test_step) = List.range o.state_history.length

/-- Every recorded bug carries the step number of the history entry whose
bug list holds it. -/
def bugs_stamped (o : CCSTestOracle) : Prop :=
  ∀ st ∈ o.state_history, ∀ b ∈ st.bugs_found, b.step = st.test_step

/-- Two strings whose first characters differ are different strings. -/
theorem string_ne_of_head (a b : String) (h : a.data.head? ≠ b.data.head?) : a ≠ b :=
  fun e => h (by rw [e])

/-- The negative-index message always starts with the letter N. -/
theorem negative_index_message_head (i : Int) :
    (negative_index_message i).data.head? = some 'N' := rfl

/-- The out-of-bounds message always starts with the letter P. -/
theorem out_of_bounds_message_head (i : Int) (n : Nat) :
    (out_of_bounds_message i n).data.head? = some 'P' := rfl

/-- The displayed-mismatch message always starts with the letter D. -/
theorem displayed_mismatch_message_head (d e : String) (i : Int) :
    (displayed_mismatch_message d e i).data.head? = some 'D' := rfl

/-- Mutating the last element preserves a list's length. -/
theorem length_update_last {α : Type} (f : α → α) :
    ∀ l : List α, (update_last f l).length = l.length
  | [] => rfl
  | [_] => rfl
  | _ :: b :: rest => by
    simpa [update_last] using length_update_last f (b :: rest)

/-- Mutating the last element, described by splitting the list there. -/
theorem update_last_eq_append {α : Type} (f : α → α) :
    ∀ (l : List α) (h : l ≠ []), update_last f l = l.dropLast ++ [f (l.getLast h)]
  | [], h => absurd rfl h
  | [_], _ => rfl
  | a :: b :: rest, _ => by
    have ih := update_last_eq_append f (b :: rest) (by simp)
    simp only [update_last, ih, List.dropLast_cons₂, List.getLast_cons_cons]
    rfl

/-- Mapping a function that the mutation preserves ignores the mutation. -/
theorem map_update_last {α β : Type} (f : α → α) (g : α → β)
    (hg : ∀ x, g (f x) = g x) : ∀ l : List α, (update_last f l).map g = l.map g
  | [] => rfl
  | [a] => by simp [update_last, hg]
  | a :: b :: rest => by
    simp only [update_last, List.map_cons, map_update_last f g hg (b :: rest)]

/-- An element of the mutated list is an old element or the mutated last. -/
theorem mem_update_last {α : Type} (f : α → α) :
    ∀ (l : List α) (x : α), x ∈ update_last f l → x ∈ l ∨ ∃ y ∈ l, x = f y
  | [], x, h => absurd h (by simp [update_last])
  | [a], x, h => by
    simp only [update_last, List.mem_singleton] at h
    exact Or.inr ⟨a, by simp, h⟩
  | a :: b :: rest, x, h => by
    simp only [update_last, List.mem_cons] at h
    rcases h with h | h
    · exact Or.inl (by simp [h])
    · rcases mem_update_last f (b :: rest) x h with h2 | ⟨y, hy, hxy⟩
      · exact Or.inl (List.mem_cons_of_mem a h2)
      · exact Or.inr ⟨y, List.mem_cons_of_mem a hy, hxy⟩

/-- The `get_bugs` fold, with a general accumulator. -/
theorem get_bugs_foldl (l : List CCSInteractionState) :
    ∀ acc : List Bug,
      l.foldl (fun all_bugs state => all_bugs ++ state.bugs_found) acc =
        acc ++ (l.map (fun st => st.bugs_found)).flatten := by
  induction l with
  | nil => intro acc; simp
  | cons st rest ih =>
    intro acc
    simp only [List.foldl_cons, ih, List.map_cons, List.flatten_cons, List.append_assoc]

/-- `get_bugs` concatenates the per-entry bug lists in history order. -/
theorem get_bugs_eq_flatten (o : CCSTestOracle) :
    o.get_bugs = (o.state_history.map (fun st => st.bugs_found)).flatten := by
  simpa using get_bugs_foldl o.state_history []

/-- Membership in the satisfied set of the port-matching pass. -/
theorem mem_satisfied_of (a : AppState) (u : UserState) (i : UserIntent) (c : AppCapability) :
    (i, c) ∈ satisfied_of a u ↔
      i ∈ u.active_intents ∧ port_pairs i = some c ∧ c ∈ a.active_capabilities := by
  simp only [satisfied_of, Finset.mem_biUnion]
  constructor
  · rintro ⟨j, hj, hmem⟩
    cases hpp : port_pairs j with
    | none => rw [hpp] at hmem; simp at hmem
    | some c' =>
      rw [hpp] at hmem
      by_cases hc : c' ∈ a.active_capabilities
      · simp only [hc, if_true, Finset.mem_singleton, Prod.mk.injEq] at hmem
        obtain ⟨rfl, rfl⟩ := hmem
        exact ⟨hj, hpp, hc⟩
      · simp [hc] at hmem
  · rintro ⟨hi, hpp, hc⟩
    refine ⟨i, hi, ?_⟩
    rw [hpp]
    simp [hc]

/-- Membership in the unsatisfied set of the port-matching pass. -/
theorem mem_unsatisfied_of (a : AppState) (u : UserState) (i : UserIntent) :
    i ∈ unsatisfied_of a u ↔
      i ∈ u.active_intents ∧
        ¬ ∃ c : AppCapability, port_pairs i = some c ∧ c ∈ a.active_capabilities := by
  simp only [unsatisfied_of, Finset.mem_filter, intent_unmatched]
  cases hpp : port_pairs i with
  | none => simp [hpp]
  | some c' => simp [hpp]

/-- Membership in the unused set of the port-matching pass. -/
theorem mem_unused_of (a : AppState) (u : UserState) (c : AppCapability) :
    c ∈ unused_of a u ↔
      c ∈ a.active_capabilities ∧ ∀ i : UserIntent, (i, c) ∉ satisfied_of a u := by
  simp only [unused_of, Finset.mem_sdiff, Finset.mem_image]
  constructor
  · rintro ⟨hc, hn⟩
    exact ⟨hc, fun i hmem => hn ⟨(i, c), hmem, rfl⟩⟩
  · rintro ⟨hc, hn⟩
    refine ⟨hc, ?_⟩
    rintro ⟨⟨i, c'⟩, hmem, rfl⟩
    exact hn i hmem

/-- `apply_validation` never changes the snapshot's step number. -/
theorem apply_validation_test_step (m : Bool) (note : String) (s : CCSInteractionState) :
    (CCSInteractionState.apply_validation m note s).test_step = s.test_step := by
  cases m <;> rfl

/-- `apply_validation` leaves the bug list alone (match verdict) or appends
the one tester-reported bug, stamped with this snapshot's own step number. -/
theorem apply_validation_bugs (m : Bool) (note : String) (s : CCSInteractionState) :
    (CCSInteractionState.apply_validation m note s).bugs_found = s.bugs_found ∨
    (CCSInteractionState.apply_validation m note s).bugs_found =
      s.bugs_found ++ [Bug.ui_inconsistency s.test_step s.user_state.expected_visible
        s.app_state.visible_elements note] := by
  cases m
  · right; rfl
  · left; rfl

/-- How a successful `transition` extends the oracle: the returned snapshot
is appended, carries `test_step = len(state_history)` and the two new agent
states, and its bug list is empty or the single automatic invariant bug
stamped with that step. -/
theorem transition_shape (o : CCSTestOracle) (now : Rat) (a : AppState) (u : UserState)
    (o' : CCSTestOracle) (st : CCSInteractionState)
    (h : o.transition now a u = Except.ok (o', st)) :
    o'.state_history = o.state_history ++ [st] ∧
    st.test_step = o.state_history.length ∧
    st.app_state = a ∧ st.user_state = u ∧
    (st.bugs_found = [] ∨
      ∃ viols : List String, viols ≠ [] ∧ a.check_invariants = Except.ok viols ∧
        st.bugs_found =
          [Bug.invariant_violation o.state_history.length viols "Automated invariant check"]) := by
  unfold CCSTestOracle.transition at h
  cases hc : a.check_invariants with
  | error e => rw [hc] at h; exact absurd h (by simp)
  | ok viols =>
    rw [hc] at h
    dsimp only at h
    by_cases hv : viols = []
    · rw [if_pos hv] at h
      simp only [Except.ok.injEq, Prod.mk.injEq] at h
      obtain ⟨ho, hst⟩ := h
      subst ho
      subst hst
      exact ⟨rfl, rfl, rfl, rfl, Or.inl rfl⟩
    · rw [if_neg hv] at h
      simp only [Except.ok.injEq, Prod.mk.injEq] at h
      obtain ⟨ho, hst⟩ := h
      subst ho
      subst hst
      exact ⟨rfl, rfl, rfl, rfl, Or.inr ⟨viols, hv, rfl, rfl⟩⟩

/-- One oracle call preserves both step-numbering invariants. -/
theorem steps_ok_apply_op (o : CCSTestOracle) (op : OracleOp)
    (h1 : steps_indexed o) (h2 : bugs_stamped o) :
    steps_indexed (o.apply_op op) ∧ bugs_stamped (o.apply_op op) := by
  cases op with
  | transition now a u =>
    simp only [CCSTestOracle.apply_op]
    cases ht : o.transition now a u with
    | error e => exact ⟨h1, h2⟩
    | ok p =>
      obtain ⟨hist, hstep, _, _, hbugs⟩ := transition_shape o now a u p.1 p.2 ht
      constructor
      · unfold steps_indexed
        rw [hist]
        simp only [List.map_append, List.map_cons, List.map_nil, List.length_append,
          List.length_cons, List.length_nil]
        rw [h1, hstep, List.range_succ]
      · intro st hst b hb
        rw [hist] at hst
        rcases List.mem_append.mp hst with hold | hnew
        · exact h2 st hold b hb
        · rw [List.mem_singleton] at hnew
          subst hnew
          rcases hbugs with hnil | ⟨viols, _, _, heq⟩
          · rw [hnil] at hb; exact absurd hb (by simp)
          · rw [heq] at hb
            rw [List.mem_singleton] at hb
            subst hb
            rw [hstep]
            rfl
  | user_validation m notes =>
    simp only [CCSTestOracle.apply_op, CCSTestOracle.user_validation]
    constructor
    · unfold steps_indexed
      simp only []
      rw [map_update_last _ _ (apply_validation_test_step m notes), length_update_last]
      exact h1
    · intro st hst b hb
      simp only [] at hst
      rcases mem_update_last _ _ _ hst with hold | ⟨y, hy, hxy⟩
      · exact h2 st hold b hb
      · subst hxy
        rw [apply_validation_test_step]
        rcases apply_validation_bugs m notes y with hbeq | hbeq
        · exact h2 y hy b (hbeq ▸ hb)
        · rw [hbeq] at hb
          rcases List.mem_append.mp hb with hbold | hbnew
          · exact h2 y hy b hbold
          · rw [List.mem_singleton] at hbnew
            subst hbnew
            rfl

/-- Running any call sequence preserves both invariants. -/
theorem run_preserves (ops : List OracleOp) :
    ∀ o : CCSTestOracle, steps_indexed o → bugs_stamped o →
      steps_indexed (o.run ops) ∧ bugs_stamped (o.run ops) := by
  induction ops with
  | nil => exact fun o hx hy => ⟨hx, hy⟩
  | cons op rest ih =>
    intro o hx hy
    have hstep := steps_ok_apply_op o op hx hy
    simpa [CCSTestOracle.run] using ih (o.apply_op op) hstep.1 hstep.2

/-- Both invariants hold at a session start (empty oracle, or one
`initialize_state`, whose single entry has step 0 and no bugs). -/
theorem session_start_ok (minit : Option PracticeMode) :
    steps_indexed (session_start minit) ∧ bugs_stamped (session_start minit) := by
  cases minit with
  | none =>
    constructor
    · rfl
    · intro st hst
      exact absurd hst (by simp [session_start, CCSTestOracle.empty])
  | some m =>
    constructor
    · rfl
    · intro st hst b hb
      simp only [session_start, CCSTestOracle.initialize_state, CCSTestOracle.empty,
        List.nil_append, List.mem_singleton] at hst
      subst hst
      exact absurd hb (by simp)

/-- Both invariants hold after any session run. -/
theorem session_invariant (minit : Option PracticeMode) (ops : List OracleOp) :
    steps_indexed ((session_start minit).run ops) ∧
      bugs_stamped ((session_start minit).run ops) :=
  run_preserves ops _ (session_start_ok minit).1 (session_start_ok minit).2

/-- Positional reading of `steps_indexed`: entry `k` carries step `k`. -/
theorem steps_indexed_get (o : CCSTestOracle) (hs : steps_indexed o) (k : Nat)
    (h : k < o.state_history.length) :
    (o.state_history.get ⟨k, h⟩).test_step = k := by
  have hcong := congrArg (fun l => l[k]?) hs
  simp only [List.getElem?_map] at hcong
  rw [List.getElem?_eq_getElem h] at hcong
  rw [List.getElem?_range h] at hcong
  simpa using hcong

/-- Decomposition of a successful `check_invariants` run: the result is the
four pure blocks in source order followed by the displayed-phrase block,
which is empty or a single mismatch message at the state's own index. -/
theorem check_invariants_ok_shape (s : AppState) (vs : List String)
    (hok : s.check_invariants = Except.ok vs) :
    ∃ v5 : List String,
      check_displayed_phrase s = Except.ok v5 ∧
      vs = check_results_without_recording s ++ check_guided_list_nonempty s ++
        check_index_bounds s ++ check_results_score s ++ v5 ∧
      (v5 = [] ∨ ∃ d e : String,
        v5 = [displayed_mismatch_message d e s.current_phrase_index]) := by
  unfold AppState.check_invariants at hok
  cases h5 : check_displayed_phrase s with
  | error e => rw [h5] at hok; simp at hok
  | ok v5 =>
    rw [h5] at hok
    simp only [Except.ok.injEq] at hok
    subst hok
    refine ⟨v5, rfl, rfl, ?_⟩
    unfold check_displayed_phrase at h5
    by_cases hm : s.mode = PracticeMode.GUIDED_LIST ∧ s.phrase_list.length > 0
    · rw [if_pos hm] at h5
      cases hg : py_list_get s.phrase_list s.current_phrase_index with
      | error e => rw [hg] at h5; simp at h5
      | ok expected =>
        rw [hg] at h5
        simp only [Except.ok.injEq] at h5
        cases hdp : s.displayed_phrase_text with
        | none => rw [hdp] at h5; exact Or.inl h5.symm
        | some d =>
          rw [hdp] at h5
          dsimp only at h5
          by_cases hcond : d ≠ "" ∧ d ≠ expected
          · rw [if_pos hcond] at h5
            exact Or.inr ⟨d, expected, h5.symm⟩
          · rw [if_neg hcond] at h5
            exact Or.inl h5.symm
    · rw [if_neg hm] at h5
      simp only [Except.ok.injEq] at h5
      exact Or.inl h5.symm

/-- The first block emits only its fixed message. -/
theorem eq_of_mem_check_results_without_recording (s : AppState) (x : String)
    (h : x ∈ check_results_without_recording s) : x = results_no_recording_message := by
  unfold check_results_without_recording at h
  split at h
  · simpa using h
  · simp at h

/-- The second block emits only its fixed message. -/
theorem eq_of_mem_check_guided_list_nonempty (s : AppState) (x : String)
    (h : x ∈ check_guided_list_nonempty s) : x = empty_list_message := by
  unfold check_guided_list_nonempty at h
  split at h
  · simpa using h
  · simp at h

/-- The fourth block emits only its fixed message. -/
theorem eq_of_mem_check_results_score (s : AppState) (x : String)
    (h : x ∈ check_results_score s) : x = no_score_message := by
  unfold check_results_score at h
  split at h
  · simpa using h
  · simp at h

/-- Negative-index messages are distinct from the results-block message. -/
theorem negative_index_message_ne_results (j : Int) :
    negative_index_message j ≠ results_no_recording_message :=
  string_ne_of_head _ _ (by rw [negative_index_message_head]; decide)

/-- Negative-index messages are distinct from the empty-list message. -/
theorem negative_index_message_ne_empty_list (j : Int) :
    negative_index_message j ≠ empty_list_message :=
  string_ne_of_head _ _ (by rw [negative_index_message_head]; decide)

/-- Negative-index messages are distinct from the no-score message. -/
theorem negative_index_message_ne_no_score (j : Int) :
    negative_index_message j ≠ no_score_message :=
  string_ne_of_head _ _ (by rw [negative_index_message_head]; decide)

/-- Negative-index messages are distinct from every mismatch message. -/
theorem negative_index_message_ne_mismatch (j : Int) (d e : String) (i : Int) :
    negative_index_message j ≠ displayed_mismatch_message d e i :=
  string_ne_of_head _ _
    (by rw [negative_index_message_head, displayed_mismatch_message_head]; decide)

/-- Out-of-bounds messages are distinct from the results-block message. -/
theorem out_of_bounds_message_ne_results (j : Int) (n : Nat) :
    out_of_bounds_message j n ≠ results_no_recording_message :=
  string_ne_of_head _ _ (by rw [out_of_bounds_message_head]; decide)

/-- Out-of-bounds messages are distinct from the empty-list message. -/
theorem out_of_bounds_message_ne_empty_list (j : Int) (n : Nat) :
    out_of_bounds_message j n ≠ empty_list_message :=
  string_ne_of_head _ _ (by rw [out_of_bounds_message_head]; decide)

/-- Out-of-bounds messages are distinct from the no-score message. -/
theorem out_of_bounds_message_ne_no_score (j : Int) (n : Nat) :
    out_of_bounds_message j n ≠ no_score_message :=
  string_ne_of_head _ _ (by rw [out_of_bounds_message_head]; decide)

/-- Out-of-bounds messages are distinct from every mismatch message. -/
theorem out_of_bounds_message_ne_mismatch (j : Int) (n : Nat) (d e : String) (i : Int) :
    out_of_bounds_message j n ≠ displayed_mismatch_message d e i :=
  string_ne_of_head _ _
    (by rw [out_of_bounds_message_head, displayed_mismatch_message_head]; decide)

/-- A mismatch verdict appends exactly one tester-reported bug, carrying the
note and this snapshot's own step number and element sets. -/
theorem apply_validation_false_eq (note : String) (s : CCSInteractionState) :
    CCSInteractionState.apply_validation false note s =
      { s with
        user_state :=
          { s.user_state with perception_matches := some false, perception_notes := note },
        bugs_found := s.bugs_found ++
          [Bug.ui_inconsistency s.test_step s.user_state.expected_visible
            s.app_state.visible_elements note] } := rfl

/-- A `user_validation(matches=false, note)` call grows `get_bugs` by exactly
the one tester-reported bug of the most recent history entry. -/
theorem user_validation_false_get_bugs (o : CCSTestOracle) (last : CCSInteractionState)
    (h : o.state_history.getLast? = some last) (note : String) :
    (o.user_validation false note).get_bugs =
      o.get_bugs ++ [Bug.ui_inconsistency last.test_step last.user_state.expected_visible
        last.app_state.visible_elements note] := by
  have hne : o.state_history ≠ [] := by
    intro h0
    rw [h0] at h
    simp at h
  have hlast : o.state_history.getLast hne = last := by
    rw [List.getLast?_eq_getLast _ hne] at h
    simpa using h
  rw [get_bugs_eq_flatten, get_bugs_eq_flatten]
  simp only [CCSTestOracle.user_validation]
  rw [update_last_eq_append _ _ hne, hlast]
  conv_rhs => rw [← List.dropLast_append_getLast hne, hlast]
  simp only [List.map_append, List.map_cons, List.map_nil, List.flatten_append,
    List.flatten_cons, List.flatten_nil, List.append_nil]
  rw [apply_validation_false_eq]
  simp only [List.append_assoc]

/-- Bugs holding one common step number are pairwise non-decreasing. -/
theorem pairwise_step_of_const (c : Nat) :
    ∀ l : List Bug, (∀ b ∈ l, Bug.step b = c) →
      l.Pairwise (fun b1 b2 => b1.step ≤ b2.step) := by
  intro l hl
  refine List.pairwise_of_forall_mem_list ?_
  intro a ha b hb
  rw [hl a ha, hl b hb]

/-- Over any session run, the concatenated bug list is non-decreasing in
step number. -/
theorem session_bugs_sorted (minit : Option PracticeMode) (ops : List OracleOp) :
    (((session_start minit).run ops).get_bugs).Pairwise
      (fun b1 b2 => b1.step ≤ b2.step) := by
  obtain ⟨hs, hb⟩ := session_invariant minit ops
  rw [get_bugs_eq_flatten]
  rw [List.pairwise_flatten]
  set l := ((session_start minit).run ops).state_history with hl
  constructor
  · intro l' hl'
    rw [List.mem_map] at hl'
    obtain ⟨st, hst, rfl⟩ := hl'
    exact pairwise_step_of_const st.test_step _ (hb st hst)
  · have hlt : l.Pairwise (fun s1 s2 => s1.test_step < s2.test_step) := by
      have hmap : (l.map (fun st => st.test_step)).Pairwise (· < ·) := by
        rw [hs]
        exact List.pairwise_lt_range _
      exact List.pairwise_map.mp hmap
    have hcross : l.Pairwise (fun s1 s2 =>
        ∀ x ∈ s1.bugs_found, ∀ y ∈ s2.bugs_found, x.step ≤ y.step) := by
      refine hlt.imp_of_mem ?_
      intro s1 s2 h1 h2 hlt12 x hx y hy
      rw [hb s1 h1 x hx, hb s2 h2 y hy]
      exact Nat.le_of_lt hlt12
    exact List.pairwise_map.mpr hcross

/-- Every bug is of exactly one of the two kinds, so the kind counts sum to
the length. -/
theorem bug_count_split : ∀ l : List Bug,
    l.length = l.countP (fun b => b.is_invariant_violation) +
      l.countP (fun b => b.is_ui_inconsistency)
  | [] => rfl
  | b :: rest => by
    have ih := bug_count_split rest
    cases b <;>
      simp [List.countP_cons, Bug.is_invariant_violation, Bug.is_ui_inconsistency]
        at ih ⊢ <;>
      omega

/-- C1: the claim says every AppState, however structurally invalid, flows
through `check_invariants` and `transition` as violation strings and never as
a fatal error. The code contradicts this: on a GuidedList state with a
non-empty phrase list and an index past its end, `check_invariants` itself
raises `IndexError` at `phrase_list[current_phrase_index]` (after having
computed the out-of-bounds violation string it never gets to return), and
`transition` propagates that exception. This theorem evaluates the embedded
code at that failing input. -/
theorem claim_c1_invalid_state_raises :
    c1_failing_app.mode = PracticeMode.GUIDED_LIST ∧
    c1_failing_app.phrase_list ≠ [] ∧
    c1_failing_app.current_phrase_index ≥ (c1_failing_app.phrase_list.length : Int) ∧
    c1_failing_app.check_invariants = Except.error "IndexError: list index out of range" ∧
    CCSTestOracle.empty.transition 0 c1_failing_app {} =
      Except.error "IndexError: list index out of range" :=
  ⟨rfl, by decide, by decide, rfl, rfl⟩

/-- C2: `compute_port_matching` produces exactly the claimed three sets — a
pair is satisfied iff its intent is active and its table partner is an active
capability; an intent is unsatisfied iff active with no such partner match;
a capability is unused iff active and in no satisfied pair — and Scenario A
(FreeText offering text input, user wanting to enter text) yields
satisfied = the one pair, unsatisfied and unused empty, after `transition`. -/
theorem claim_c2_port_matching :
    (∀ (s : CCSInteractionState) (i : UserIntent) (c : AppCapability),
      (i, c) ∈ s.compute_port_matching.satisfied_interactions ↔
        i ∈ s.user_state.active_intents ∧ port_pairs i = some c ∧
          c ∈ s.app_state.active_capabilities) ∧
    (∀ (s : CCSInteractionState) (i : UserIntent),
      i ∈ s.compute_port_matching.unsatisfied_user_intents ↔
        i ∈ s.user_state.active_intents ∧
          ¬ ∃ c : AppCapability, port_pairs i = some c ∧
            c ∈ s.app_state.active_capabilities) ∧
    (∀ (s : CCSInteractionState) (c : AppCapability),
      c ∈ s.compute_port_matching.unused_app_capabilities ↔
        c ∈ s.app_state.active_capabilities ∧
          ∀ i : UserIntent, (i, c) ∉ s.compute_port_matching.satisfied_interactions) ∧
    (CCSTestOracle.empty.transition 0 scenario_a_app scenario_a_user).map
        (fun p => (p.2.satisfied_interactions, p.2.unsatisfied_user_intents,
          p.2.unused_app_capabilities)) =
      Except.ok ({(UserIntent.WANT_ENTER_TEXT, AppCapability.ACCEPT_TEXT_INPUT)}, ∅, ∅) := by
  refine ⟨?_, ?_, ?_, rfl⟩
  · intro s i c
    simpa [CCSInteractionState.compute_port_matching]
      using mem_satisfied_of s.app_state s.user_state i c
  · intro s i
    simpa [CCSInteractionState.compute_port_matching]
      using mem_unsatisfied_of s.app_state s.user_state i
  · intro s c
    simpa [CCSInteractionState.compute_port_matching]
      using mem_unused_of s.app_state s.user_state c

/-- C3: the intent-to-capability table is total over the 17-variant
`UserIntent` enumeration — every intent is mapped to exactly one capability,
so no intent becomes unsatisfied merely for lack of a table entry. -/
theorem claim_c3_port_table_total :
    Fintype.card UserIntent = 17 ∧
    ∀ i : UserIntent, ∃ c : AppCapability, port_pairs i = some c ∧
      ∀ c' : AppCapability, port_pairs i = some c' → c' = c :=
  ⟨by decide, by decide⟩

/-- C4 counterexample: the claim quantifies over every AppState, but with an
empty phrase list the whole index-bounds block is skipped (`len > 0` guard),
so index 5 — outside `[0, 0)` — produces no violation at all:
`check_invariants` returns an empty list. -/
theorem claim_c4_counterexample :
    (c4_outside_app.current_phrase_index < 0 ∨
      c4_outside_app.current_phrase_index ≥ (c4_outside_app.phrase_list.length : Int)) ∧
    c4_outside_app.check_invariants = Except.ok [] :=
  ⟨Or.inr (by decide), rfl⟩

/-- C4 amended: for every AppState with a NON-EMPTY phrase list on which
`check_invariants` returns normally (when the mode is GuidedList and the
index is far enough out of bounds the call instead raises — the C1 defect),
an index outside `[0, len)` puts the negative-index or out-of-bounds message
in the result, and an index inside `[0, len)` puts neither message, for any
arguments, in the result. -/
theorem claim_c4_index_bounds (s : AppState) (vs : List String)
    (hne : s.phrase_list ≠ []) (hok : s.check_invariants = Except.ok vs) :
    ((s.current_phrase_index < 0 ∨
        s.current_phrase_index ≥ (s.phrase_list.length : Int)) →
      negative_index_message s.current_phrase_index ∈ vs ∨
        out_of_bounds_message s.current_phrase_index s.phrase_list.length ∈ vs) ∧
    ((0 ≤ s.current_phrase_index ∧
        s.current_phrase_index < (s.phrase_list.length : Int)) →
      ∀ (j : Int) (n : Nat),
        negative_index_message j ∉ vs ∧ out_of_bounds_message j n ∉ vs) := by
  obtain ⟨v5, _, hvs, hv5⟩ := check_invariants_ok_shape s vs hok
  have hlen : s.phrase_list.length > 0 := List.length_pos.mpr hne
  constructor
  · intro hout
    subst hvs
    rcases hout with hneg | hge
    · left
      have hib : check_index_bounds s = [negative_index_message s.current_phrase_index] := by
        unfold check_index_bounds
        rw [if_pos hlen, if_pos hneg]
      simp [hib, List.mem_append]
    · right
      have hnotneg : ¬ s.current_phrase_index < 0 := by omega
      have hib : check_index_bounds s =
          [out_of_bounds_message s.current_phrase_index s.phrase_list.length] := by
        unfold check_index_bounds
        rw [if_pos hlen, if_neg hnotneg, if_pos hge]
      simp [hib, List.mem_append]
  · rintro ⟨hge0, hlt⟩ j n
    subst hvs
    have hib : check_index_bounds s = [] := by
      unfold check_index_bounds
      rw [if_pos hlen, if_neg (by omega), if_neg (by omega)]
    have hno : ∀ x ∈ check_results_without_recording s ++ check_guided_list_nonempty s ++
        check_index_bounds s ++ check_results_score s ++ v5,
        x = results_no_recording_message ∨ x = empty_list_message ∨ x = no_score_message ∨
          ∃ d e : String, x = displayed_mismatch_message d e s.current_phrase_index := by
      intro x hx
      rw [hib] at hx
      simp only [List.mem_append] at hx
      rcases hx with (((hx | hx) | hx) | hx) | hx
      · exact Or.inl (eq_of_mem_check_results_without_recording s x hx)
      · exact Or.inr (Or.inl (eq_of_mem_check_guided_list_nonempty s x hx))
      · exact absurd hx (by simp)
      · exact Or.inr (Or.inr (Or.inl (eq_of_mem_check_results_score s x hx)))
      · rcases hv5 with h0 | ⟨d, e, h0⟩
        · rw [h0] at hx
          exact absurd hx (by simp)
        · rw [h0] at hx
          rw [List.mem_singleton] at hx
          exact Or.inr (Or.inr (Or.inr ⟨d, e, hx⟩))
    constructor
    · intro hmem
      rcases hno _ hmem with h | h | h | ⟨d, e, h⟩
      · exact negative_index_message_ne_results j h
      · exact negative_index_message_ne_empty_list j h
      · exact negative_index_message_ne_no_score j h
      · exact negative_index_message_ne_mismatch j d e _ h
    · intro hmem
      rcases hno _ hmem with h | h | h | ⟨d, e, h⟩
      · exact out_of_bounds_message_ne_results j n h
      · exact out_of_bounds_message_ne_empty_list j n h
      · exact out_of_bounds_message_ne_no_score j n h
      · exact out_of_bounds_message_ne_mismatch j n d e _ h

/-- C4 witness: the amended theorem applied to the concrete one-phrase state
with index 5, whose invariant check returns exactly the out-of-bounds
message. -/
theorem claim_c4_witness :
    negative_index_message 5 ∈ [out_of_bounds_message 5 1] ∨
      out_of_bounds_message 5 1 ∈ [out_of_bounds_message 5 1] :=
  (claim_c4_index_bounds c4_witness_app [out_of_bounds_message 5 1]
    (by decide) rfl).1 (by decide)

/-- C5: on Scenario B (GuidedList over three phrases at index 0 with
displayed text "Obrigado"), `check_invariants` returns exactly one
violation — the displayed-text/list mismatch — and no others. -/
theorem claim_c5_scenario_b :
    scenario_b_app.check_invariants =
      Except.ok [displayed_mismatch_message "Obrigado" "Bom dia" 0] ∧
    displayed_mismatch_message "Obrigado" "Bom dia" 0 =
      "Displayed phrase 'Obrigado' doesn't match list phrase 'Bom dia' at index 0" :=
  ⟨rfl, rfl⟩

/-- C6: `compute_port_matching` is idempotent — running it twice on a
snapshot equals running it once — and deterministic: snapshots with equal
app and user states get equal satisfied, unsatisfied and unused sets (the
`Finset` model makes any iteration-order dependence unstatable, matching the
claim that output sets do not depend on it). -/
theorem claim_c6_idempotent_deterministic :
    (∀ s : CCSInteractionState,
      s.compute_port_matching.compute_port_matching = s.compute_port_matching) ∧
    (∀ s t : CCSInteractionState, s.app_state = t.app_state → s.user_state = t.user_state →
      s.compute_port_matching.satisfied_interactions =
          t.compute_port_matching.satisfied_interactions ∧
        s.compute_port_matching.unsatisfied_user_intents =
          t.compute_port_matching.unsatisfied_user_intents ∧
        s.compute_port_matching.unused_app_capabilities =
          t.compute_port_matching.unused_app_capabilities) := by
  constructor
  · intro s
    rfl
  · intro s t h1 h2
    refine ⟨?_, ?_, ?_⟩ <;> simp [CCSInteractionState.compute_port_matching, h1, h2]

/-- C7: `check_ui_consistency` records nothing on an unknown verdict
(returning false, the code's "not yet validated") or a match verdict
(returning true), and on a mismatch appends one bug capturing the expected
and actual visible-element sets, step number and note; and
`user_validation(matches=false, note)` on a session with a current history
entry grows `get_bugs` by exactly that one ui-inconsistency entry, carrying
the note and the most recent entry's step number. -/
theorem claim_c7_validation_bugs :
    (∀ s : CCSInteractionState, s.user_state.perception_matches = none →
      s.check_ui_consistency = (false, s)) ∧
    (∀ s : CCSInteractionState, s.user_state.perception_matches = some true →
      s.check_ui_consistency = (true, s)) ∧
    (∀ s : CCSInteractionState, s.user_state.perception_matches = some false →
      s.check_ui_consistency =
        (false,
          { s with
            bugs_found := s.bugs_found ++
              [Bug.ui_inconsistency s.test_step s.user_state.expected_visible
                s.app_state.visible_elements s.user_state.perception_notes] })) ∧
    (∀ (o : CCSTestOracle) (last : CCSInteractionState) (note : String),
      o.state_history.getLast? = some last →
      last.user_state.perception_matches = none →
      (o.user_validation false note).get_bugs =
        o.get_bugs ++ [Bug.ui_inconsistency last.test_step
          last.user_state.expected_visible last.app_state.visible_elements note]) := by
  refine ⟨?_, ?_, ?_, ?_⟩
  · intro s h
    unfold CCSInteractionState.check_ui_consistency
    rw [h]
  · intro s h
    unfold CCSInteractionState.check_ui_consistency
    rw [h]
  · intro s h
    unfold CCSInteractionState.check_ui_consistency
    rw [h]
  · intro o last note h _
    exact user_validation_false_get_bugs o last h note

/-- C8: in any session of at most one leading `initialize_state` followed by
transitions and validations — each transition carrying an arbitrary
wall-clock reading — the history entry at position `k` carries
`test_step = k`, so entries are totally ordered by strictly increasing step
number independent of timestamps. -/
theorem claim_c8_steps (minit : Option PracticeMode) (ops : List OracleOp) (k : Nat)
    (h : k < ((session_start minit).run ops).state_history.length) :
    ((((session_start minit).run ops).state_history).get ⟨k, h⟩).test_step = k :=
  steps_indexed_get _ (session_invariant minit ops).1 k h

/-- C8 witness: two consecutive transitions with zero measured elapsed time
(both wall-clock readings 0, so the recorded elapsed interval is 0 - 0)
still receive step numbers 0 and 1. -/
theorem claim_c8_witness :
    ((session_start none).run c8_ops).state_history.length = 2 ∧
    (((session_start none).run c8_ops).state_history.get ⟨0, by decide⟩).test_step = 0 ∧
    (((session_start none).run c8_ops).state_history.get ⟨1, by decide⟩).test_step = 1 :=
  ⟨by decide, claim_c8_steps none c8_ops 0 (by decide), claim_c8_steps none c8_ops 1 (by decide)⟩

/-- C9: after any session run, `get_bugs` is the concatenation of the
per-entry bug lists in history order, its entries are in non-decreasing step
order, and its length is the sum of the automatic (invariant-violation) and
tester-reported (ui-inconsistency) bug counts; being a pure function of the
history, repeated calls return the same list. -/
theorem claim_c9_get_bugs (minit : Option PracticeMode) (ops : List OracleOp) :
    ((session_start minit).run ops).get_bugs =
      (((session_start minit).run ops).state_history.map
        (fun st => st.bugs_found)).flatten ∧
    (((session_start minit).run ops).get_bugs).Pairwise
      (fun b1 b2 => b1.step ≤ b2.step) ∧
    (((session_start minit).run ops).get_bugs).length =
      (((session_start minit).run ops).get_bugs).countP
          (fun b => b.is_invariant_violation) +
        (((session_start minit).run ops).get_bugs).countP
          (fun b => b.is_ui_inconsistency) :=
  ⟨get_bugs_eq_flatten _, session_bugs_sorted minit ops, bug_count_split _⟩

/-- C10: `initialize_state` runs no invariant check and records no bug: its
snapshot has an empty bug list and the requested mode over an empty phrase
list, it is appended as-is, and `get_bugs` is unchanged — even though for
GuidedList that initial app state violates the structural invariants
(`check_invariants` on it returns the empty-list violation). -/
theorem claim_c10_initialize_no_bugs (o : CCSTestOracle) (m : PracticeMode) :
    (o.initialize_state m).2.bugs_found = [] ∧
    (o.initialize_state m).2.app_state.mode = m ∧
    (o.initialize_state m).2.app_state.phrase_list = [] ∧
    (o.initialize_state m).1.state_history =
      o.state_history ++ [(o.initialize_state m).2] ∧
    (o.initialize_state m).1.get_bugs = o.get_bugs ∧
    (o.initialize_state m).2.app_state.check_invariants =
      Except.ok (if m = PracticeMode.GUIDED_LIST then [empty_list_message] else []) := by
  refine ⟨rfl, rfl, rfl, rfl, ?_, ?_⟩
  · rw [get_bugs_eq_flatten, get_bugs_eq_flatten]
    simp [CCSTestOracle.initialize_state]
  · cases m <;> rfl
